import Mathlib

/-!
Shallow embedding of the VegasPay dashboard calculation core
(src/vegas_pay_dashboard_app.py): key normalization, cost-table
deduplication, the left join
with default filling, the card and PIX margin formulas, month-key
derivation and the monthly aggregations.  Text is modelled as lists of
Unicode code points (List Nat); currency amounts and rates as
rationals.  Nullable spreadsheet cells are modelled as Option values.
-/

namespace VegasPay

/-- Code points of a string literal, used to keep definitions readable. -/
def strL (s : String) : List Nat := s.toList.map Char.toNat

/-- ASCII whitespace recognised by strip.  (Python str.strip also strips
further Unicode whitespace; only ASCII whitespace can occur in the brand
and product vocabulary this program joins on.) -/
def isSpaceN (c : Nat) : Bool :=
  decide (c = 32 ∨ c = 9 ∨ c = 10 ∨ c = 13 ∨ c = 11 ∨ c = 12)

/-- Python str.strip: drop leading and trailing whitespace. -/
def stripN (s : List Nat) : List Nat :=
  ((s.dropWhile isSpaceN).reverse.dropWhile isSpaceN).reverse

/-- ASCII uppercase of one code point (Python str.upper on this data). -/
def upChar (c : Nat) : Nat := if 97 ≤ c ∧ c ≤ 122 then c - 32 else c

/-- Python str.upper, applied pointwise. -/
def upperN (s : List Nat) : List Nat := s.map upChar

/-- Python str.replace for a non-empty pattern: scan left to right,
replace non-overlapping occurrences, continue after the replacement.
Structural recursion on a fuel argument (one unit per consumed source
position); the wrapper below supplies fuel equal to the input length,
which is always sufficient because each step consumes at least one
source element. -/
def replaceGo (pat rep : List Nat) : Nat → List Nat → List Nat
  | _, [] => []
  | 0, s => s
  | fuel + 1, c :: rest =>
    if pat ≠ [] ∧ pat.isPrefixOf (c :: rest) then
      rep ++ replaceGo pat rep fuel ((c :: rest).drop pat.length)
    else
      c :: replaceGo pat rep fuel rest

/-- Python str.replace (all occurrences, non-overlapping). -/
def replaceL (pat rep s : List Nat) : List Nat := replaceGo pat rep s.length s

/-- Python substring containment (pat in s) for the fixed patterns used here. -/
def containsPat (pat : List Nat) : List Nat → Bool
  | [] => pat.isEmpty
  | c :: rest => pat.isPrefixOf (c :: rest) || containsPat pat rest

/-- norm_bandeira on an actual string (the pd.isna branch is handled by
normBandeiraOpt): strip, uppercase, then the three fixed substitutions
in source order. -/
def normBandeira (s : List Nat) : List Nat :=
  replaceL (strL "VISA ELECTRON") (strL "VISA")
    (replaceL (strL "MAESTRO") (strL "MASTER")
      (replaceL (strL "MASTERCARD") (strL "MASTER") (upperN (stripN s))))

/-- norm_bandeira including the null branch: pd.isna(x) yields the empty key. -/
def normBandeiraOpt (x : Option (List Nat)) : List Nat :=
  match x with
  | none => []
  | some s => normBandeira s

/-- norm_prod: null yields the empty key; otherwise strip, uppercase,
and return DEBITO when the first character is D, CREDITO otherwise. -/
def normProd (x : Option (List Nat)) : List Nat :=
  match x with
  | none => []
  | some s =>
    if (upperN (stripN s)).head? = some (Char.toNat 'D') then strL "DEBITO"
    else strL "CREDITO"

/-! ### Facts about the text utilities -/

theorem upChar_idem (c : Nat) : upChar (upChar c) = upChar c := by
  by_cases h : 97 ≤ c ∧ c ≤ 122
  · have h2 : ¬ (97 ≤ c - 32 ∧ c - 32 ≤ 122) := by omega
    simp only [upChar, if_pos h, if_neg h2]
  · simp [upChar, h]

theorem upperN_idem (s : List Nat) : upperN (upperN s) = upperN s := by
  induction s with
  | nil => rfl
  | cons c t ih =>
    simp only [upperN, List.map_cons] at ih ⊢
    rw [upChar_idem, ih]

theorem isSpaceN_upChar (c : Nat) : isSpaceN (upChar c) = isSpaceN c := by
  simp only [isSpaceN, upChar]
  split
  · exact decide_eq_decide.mpr (by omega)
  · rfl

theorem dropWhile_dropWhile {α : Type} (p : α → Bool) (l : List α) :
    (l.dropWhile p).dropWhile p = l.dropWhile p := by
  induction l with
  | nil => rfl
  | cons a t ih =>
    by_cases h : p a
    · simp [List.dropWhile_cons, h, ih]
    · simp [List.dropWhile_cons, h]

theorem head?_dropWhile_false {α : Type} (p : α → Bool) (l : List α) {c : α}
    (h : (l.dropWhile p).head? = some c) : p c = false := by
  induction l with
  | nil => simp at h
  | cons a t ih =>
    rw [List.dropWhile_cons] at h
    by_cases hp : p a
    · rw [if_pos hp] at h
      exact ih h
    · rw [if_neg hp] at h
      simp only [List.head?_cons, Option.some.injEq] at h
      rw [← h]
      exact Bool.eq_false_iff.mpr hp

theorem dropWhile_eq_self_of_head {α : Type} (p : α → Bool) (l : List α)
    (h : ∀ c, l.head? = some c → p c = false) : l.dropWhile p = l := by
  cases l with
  | nil => rfl
  | cons a t =>
    have := h a rfl
    rw [List.dropWhile_cons, if_neg]
    simp [this]

theorem getLast?_of_suffix {α : Type} {u l : List α} (h : u <:+ l) (hu : u ≠ []) :
    u.getLast? = l.getLast? := by
  obtain ⟨t, rfl⟩ := h
  exact (List.getLast?_append_of_ne_nil t hu).symm

theorem stripN_idem (s : List Nat) : stripN (stripN s) = stripN s := by
  unfold stripN
  set A := s.dropWhile isSpaceN with hA
  set C := A.reverse.dropWhile isSpaceN with hC
  have hCrev : C.reverse.dropWhile isSpaceN = C.reverse := by
    apply dropWhile_eq_self_of_head
    intro c hc
    rw [List.head?_reverse] at hc
    have hCne : C ≠ [] := by
      intro h0
      rw [h0] at hc
      simp at hc
    have h1 : C.getLast? = A.reverse.getLast? :=
      getLast?_of_suffix (show C <:+ A.reverse by rw [hC]; exact List.dropWhile_suffix _) hCne
    rw [h1, List.getLast?_reverse] at hc
    exact head?_dropWhile_false isSpaceN s (hA ▸ hc)
  rw [hCrev, List.reverse_reverse, hC, dropWhile_dropWhile]

theorem dropWhile_isSpaceN_upperN (l : List Nat) :
    (upperN l).dropWhile isSpaceN = upperN (l.dropWhile isSpaceN) := by
  unfold upperN
  rw [List.dropWhile_map]
  have h : isSpaceN ∘ upChar = isSpaceN := funext isSpaceN_upChar
  rw [h]

theorem upperN_reverse (l : List Nat) : (upperN l).reverse = upperN l.reverse :=
  (List.map_reverse upChar l).symm

theorem stripN_upperN (s : List Nat) : stripN (upperN s) = upperN (stripN s) := by
  unfold stripN
  rw [dropWhile_isSpaceN_upperN, upperN_reverse, dropWhile_isSpaceN_upperN, upperN_reverse]

theorem replaceGo_of_not_contains (pat rep : List Nat) :
    ∀ (fuel : Nat) (s : List Nat), containsPat pat s = false →
      replaceGo pat rep fuel s = s := by
  intro fuel
  induction fuel with
  | zero =>
    intro s h
    cases s <;> rfl
  | succ n ih =>
    intro s h
    cases s with
    | nil => rfl
    | cons c rest =>
      simp only [containsPat, Bool.or_eq_false_iff] at h
      simp only [replaceGo]
      rw [if_neg (fun hcon => by simp [h.1] at hcon), ih rest h.2]

theorem replaceL_of_not_contains (pat rep s : List Nat) (h : containsPat pat s = false) :
    replaceL pat rep s = s :=
  replaceGo_of_not_contains pat rep s.length s h

/-! ### Claims C7 and C8: brand and product normalization -/

/-- Claim C7, counterexample: brand normalization is not idempotent on
every input.  The substitution pass can itself re-create a pattern:
normalize_brand applied to MASTERCARDCARD replaces the leading
MASTERCARD and yields MASTERCARD, which a second application maps to
MASTER. -/
theorem normBandeira_not_idempotent :
    normBandeira (strL "MASTERCARDCARD") = strL "MASTERCARD" ∧
    normBandeira (normBandeira (strL "MASTERCARDCARD")) = strL "MASTER" ∧
    normBandeira (normBandeira (strL "MASTERCARDCARD")) ≠
      normBandeira (strL "MASTERCARDCARD") := by
  refine ⟨by decide, by decide, by decide⟩

/-- Claim C7, amended: brand normalization is idempotent on every input
whose stripped and uppercased form contains none of the three
substituted patterns MASTERCARD, MAESTRO and VISA ELECTRON as a
substring (on such inputs the substitution pass is the identity and the
normalized result is already stripped and uppercased). -/
theorem normBandeira_idem (x : List Nat)
    (h1 : containsPat (strL "MASTERCARD") (upperN (stripN x)) = false)
    (h2 : containsPat (strL "MAESTRO") (upperN (stripN x)) = false)
    (h3 : containsPat (strL "VISA ELECTRON") (upperN (stripN x)) = false) :
    normBandeira (normBandeira x) = normBandeira x := by
  have hz : normBandeira x = upperN (stripN x) := by
    unfold normBandeira
    rw [replaceL_of_not_contains _ _ _ h1, replaceL_of_not_contains _ _ _ h2,
      replaceL_of_not_contains _ _ _ h3]
  rw [hz]
  have hs : stripN (upperN (stripN x)) = upperN (stripN x) := by
    rw [stripN_upperN, stripN_idem]
  unfold normBandeira
  rw [hs, upperN_idem, replaceL_of_not_contains _ _ _ h1,
    replaceL_of_not_contains _ _ _ h2, replaceL_of_not_contains _ _ _ h3]

/-- Witness for the amended C7 theorem at the concrete brand ELO. -/
theorem normBandeira_idem_witness :
    normBandeira (normBandeira (strL "ELO")) = normBandeira (strL "ELO") :=
  normBandeira_idem (strL "ELO") (by decide) (by decide) (by decide)

/-- Claim C8, counterexample: a blank (non-null) product does not map to
the empty key.  pd.isna of an empty or whitespace string is False, so the
blank string reaches the prefix rule and, not starting with D, becomes
CREDITO. -/
theorem normProd_blank_not_empty :
    normProd (some (strL " ")) = strL "CREDITO" ∧ normProd (some (strL " ")) ≠ [] := by
  refine ⟨by decide, by decide⟩

/-- Claim C8, amended: product normalization maps null input to the
empty key; every non-null input, including blank input, is uppercased and
trimmed and then mapped to DEBITO when the first character is D and to
CREDITO otherwise (so blank input yields CREDITO). -/
theorem normProd_spec :
    normProd none = [] ∧
    (∀ s : List Nat, (upperN (stripN s)).head? = some (Char.toNat 'D') →
      normProd (some s) = strL "DEBITO") ∧
    (∀ s : List Nat, (upperN (stripN s)).head? ≠ some (Char.toNat 'D') →
      normProd (some s) = strL "CREDITO") := by
  refine ⟨rfl, ?_, ?_⟩
  · intro s h
    simp only [normProd, if_pos h]
  · intro s h
    simp only [normProd, if_neg h]

/-- Witness for the amended C8 theorem at concrete inputs. -/
theorem normProd_spec_witness :
    normProd (some (strL "Debito")) = strL "DEBITO" ∧
    normProd (some (strL "visa")) = strL "CREDITO" :=
  ⟨normProd_spec.2.1 (strL "Debito") (by decide),
   normProd_spec.2.2 (strL "visa") (by decide)⟩

/-! ### Data model: transaction, cost and joined records -/

/-- A successfully parsed transaction date (year, month, day).  A value
that pd.to_datetime with errors coerce could not parse is modelled as
none at the use sites. -/
structure PDate where
  y : Nat
  m : Nat
  d : Nat
deriving DecidableEq

/-- One row of the Vendas (card transactions) sheet.  Free-text cells
are code-point lists; nullable or non-numeric cells are Options. -/
structure VendaRow where
  mcc : List Nat
  bandeira : Option (List Nat)
  produto : Option (List Nat)
  valor : Option ℚ
  mdr : Option ℚ
  tarifaAnt : Option ℚ
  dataTransacao : Option PDate
deriving DecidableEq

/-- One row of the cost-rate sheet (after the Taxas to Taxa rename). -/
structure CustoRow where
  mcc : List Nat
  bandeira : List Nat
  produto : List Nat
  taxa : Option ℚ
  taxaAnt : Option ℚ
  imposto : Option ℚ
deriving DecidableEq

/-- The projection of a cost row to the six columns kept in custos_slim:
the trimmed MCC, the cost-side brand and product keys (uppercase then
strip, with no substitution table), and the three rate columns. -/
structure SlimCusto where
  mcc : List Nat
  bandeiraKey : List Nat
  produtoKey : List Nat
  taxa : Option ℚ
  taxaAnt : Option ℚ
  imposto : Option ℚ
deriving DecidableEq

/-- Cost-side key computation and projection (lines 108-116, 124). -/
def custoSlim (c : CustoRow) : SlimCusto :=
  ⟨stripN c.mcc, stripN (upperN c.bandeira), stripN (upperN c.produto),
   c.taxa, c.taxaAnt, c.imposto⟩

/-- pandas drop_duplicates: keep the first occurrence of each exact row,
via an accumulator of rows already seen. -/
def dropDupAux {α : Type} [DecidableEq α] (seen : List α) : List α → List α
  | [] => []
  | a :: l => if a ∈ seen then dropDupAux seen l else a :: dropDupAux (a :: seen) l

/-- pandas drop_duplicates (first occurrence wins). -/
def dropDupFirst {α : Type} [DecidableEq α] (l : List α) : List α := dropDupAux [] l

/-- custos_slim: project every cost row and drop exact-duplicate rows.
Rows that agree on the key but differ in a rate column both survive. -/
def custosSlim (custos : List CustoRow) : List SlimCusto :=
  dropDupFirst (custos.map custoSlim)

/-- The composite join key of a deduplicated cost row. -/
def slimKey (c : SlimCusto) : List Nat × List Nat × List Nat :=
  (c.mcc, c.bandeiraKey, c.produtoKey)

/-- The composite join key of a transaction: trimmed MCC, sales-side
brand key (with the substitution table) and product key. -/
def vendaKey (v : VendaRow) : List Nat × List Nat × List Nat :=
  (stripN v.mcc, normBandeiraOpt v.bandeira, normProd v.produto)

/-- A joined row before the fillna defaults: the transaction together
with the rate columns copied from a matching cost row, or none on a
left-join miss. -/
structure JoinedRaw where
  venda : VendaRow
  taxa : Option ℚ
  taxaAnt : Option ℚ
  imposto : Option ℚ
deriving DecidableEq

/-- A joined row after the fillna defaults. -/
structure JoinedRow where
  venda : VendaRow
  taxa : ℚ
  taxaAnt : ℚ
  imposto : ℚ
deriving DecidableEq

/-- The rows a single transaction contributes to the left merge: one row
per matching cost row, or a single all-none row when nothing matches. -/
def joinOne (slim : List SlimCusto) (v : VendaRow) : List JoinedRaw :=
  match slim.filter (fun c => decide (slimKey c = vendaKey v)) with
  | [] => [⟨v, none, none, none⟩]
  | m :: ms => (m :: ms).map (fun c => ⟨v, c.taxa, c.taxaAnt, c.imposto⟩)

/-- vendas.merge(custos_slim, how=left, on=[MCC, _BANDEIRA_KEY,
_PRODUTO_KEY]): every transaction in order, each with its block of
matches (or its single unmatched row). -/
def leftMerge (slim : List SlimCusto) : List VendaRow → List JoinedRaw
  | [] => []
  | v :: vs => joinOne slim v ++ leftMerge slim vs

/-- The fillna defaults of lines 129-131: Taxa 0, Taxa Antecipação 0,
Imposto 0.115. -/
def fillDefaults (r : JoinedRaw) : JoinedRow :=
  ⟨r.venda, r.taxa.getD 0, r.taxaAnt.getD 0, r.imposto.getD (115 / 1000)⟩

/-- The full card-side preparation: normalize, deduplicate the cost
table, left-join, fill the defaults. -/
def cardPipeline (vendas : List VendaRow) (custos : List CustoRow) : List JoinedRow :=
  (leftMerge (custosSlim custos) vendas).map fillDefaults

/-! ### Margin calculator (card) -/

/-- Numeric Valor after pd.to_numeric errors coerce and fillna 0. -/
def valorN (r : JoinedRow) : ℚ := r.venda.valor.getD 0

/-- Numeric MDR fee after pd.to_numeric errors coerce and fillna 0. -/
def mdrN (r : JoinedRow) : ℚ := r.venda.mdr.getD 0

/-- Numeric Tarifa Antecipacao after fillna 0 (or 0 when the column is
absent, which is the all-none case of the Option model). -/
def tarifaAntN (r : JoinedRow) : ℚ := r.venda.tarifaAnt.getD 0

/-- total_ant: the full advance-fee rate charged to the merchant. -/
def totalAnt : ℚ := 189 / 10000

/-- intrepay_ant: the settlement processor's share of that rate. -/
def intrepayAnt : ℚ := 147 / 10000

/-- prop_intrepay: the processor's proportion of the advance fee. -/
def propIntrepay : ℚ := intrepayAnt / totalAnt

/-- prop_vegas: the reseller's proportion of the advance fee. -/
def propVegas : ℚ := 1 - propIntrepay

/-- Custo_Entrepay_MDR: gross amount times the joined fee rate. -/
def custoEntrepayMDR (r : JoinedRow) : ℚ := valorN r * r.taxa

/-- Receita_Vegas_Ant: the reseller's share of the advance fee charged. -/
def receitaVegasAnt (r : JoinedRow) : ℚ := tarifaAntN r * propVegas

/-- Vegas_Bruto: MDR fee minus processor MDR cost plus advance share. -/
def vegasBruto (r : JoinedRow) : ℚ := mdrN r - custoEntrepayMDR r + receitaVegasAnt r

/-- Imposto_sobre_VegasBruto: tax on Vegas_Bruto at the joined rate. -/
def impostoSobreVegasBruto (r : JoinedRow) : ℚ := vegasBruto r * r.imposto

/-- MDR Líquido Vegas: the per-transaction net margin. -/
def mdrLiquidoVegas (r : JoinedRow) : ℚ := vegasBruto r - impostoSobreVegasBruto r

/-! ### Example rows used by the worked examples of the specification -/

/-- The end-to-end example transaction: MCC 5411, brand MASTERCARD,
product CREDITO, gross 1000, MDR fee 20, advance fee 0, dated
2024-03-15. -/
def exVenda : VendaRow :=
  ⟨strL "5411", some (strL "MASTERCARD"), some (strL "CREDITO"),
   some 1000, some 20, some 0, some ⟨2024, 3, 15⟩⟩

/-- The end-to-end example cost row: MCC 5411, brand MASTER, product
CREDITO, fee rate 0.01, advance rate 0, tax rate 0.10. -/
def exCusto : CustoRow :=
  ⟨strL "5411", strL "MASTER", strL "CREDITO",
   some (1 / 100), some 0, some (1 / 10)⟩

/-- The joined row the pipeline produces for the example pair: the
MASTERCARD brand normalizes to MASTER and matches the cost row, whose
rates are copied. -/
def exJoinedRow : JoinedRow := ⟨exVenda, 1 / 100, 0, 1 / 10⟩

/-- The joined row the pipeline produces for the example transaction
against an empty cost table: all three rates are defaulted. -/
def exJoinedDefault : JoinedRow := ⟨exVenda, 0, 0, 115 / 1000⟩

theorem exPipeline_eq : cardPipeline [exVenda] [exCusto] = [exJoinedRow] := rfl

theorem exPipelineNoCusto_eq : cardPipeline [exVenda] [] = [exJoinedDefault] := rfl

/-! ### Claim C1: the card net-margin formula -/

/-- The net-margin formula exactly as claim C1 states it: gross reseller
revenue (MDR fee plus the reseller's advance share) minus tax on that
gross revenue minus the processor MDR cost minus the processor advance
cost.  Stated from the specification's words, for comparison with the
code's formula. -/
def specNetMargin (valor mdr ant taxa imposto : ℚ) : ℚ :=
  (mdr + ant * propVegas) - (mdr + ant * propVegas) * imposto
    - valor * taxa - ant * propIntrepay

/-- Claim C1, counterexample: on the specification's own end-to-end
example the code computes tax on Vegas_Bruto (MDR fee minus processor
MDR cost plus advance share), not on gross reseller revenue, and never
subtracts a processor advance cost; the code's net margin is 9.00 while
the claimed formula gives 8.00. -/
theorem netMargin_claim_false :
    (cardPipeline [exVenda] [exCusto]).map mdrLiquidoVegas = [9] ∧
    specNetMargin 1000 20 0 (1 / 100) (1 / 10) = 8 ∧
    ((9 : ℚ) ≠ 8) := by
  refine ⟨?_, ?_, by norm_num⟩
  · rw [exPipeline_eq]
    simp only [List.map_cons, List.map_nil]
    norm_num [mdrLiquidoVegas, impostoSobreVegasBruto, vegasBruto, custoEntrepayMDR,
      receitaVegasAnt, mdrN, valorN, tarifaAntN, propVegas, propIntrepay, intrepayAnt,
      totalAnt, exJoinedRow, exVenda]
  · norm_num [specNetMargin, propVegas, propIntrepay, intrepayAnt, totalAnt]

/-- Claim C1, amended: for every joined card transaction the net margin
equals (MDR fee minus processor MDR cost plus the reseller's advance
share) times (1 minus the tax rate); the tax base is that same
Vegas_Bruto quantity and no processor advance cost is subtracted.  On
the end-to-end example this yields processor MDR cost 10.00, Vegas_Bruto
10.00, tax owed 1.00 and net margin 9.00. -/
theorem mdrLiquido_formula (r : JoinedRow) :
    mdrLiquidoVegas r =
      (mdrN r - valorN r * r.taxa + tarifaAntN r * propVegas) * (1 - r.imposto) ∧
    (cardPipeline [exVenda] [exCusto]).map custoEntrepayMDR = [10] ∧
    (cardPipeline [exVenda] [exCusto]).map vegasBruto = [10] ∧
    (cardPipeline [exVenda] [exCusto]).map impostoSobreVegasBruto = [1] ∧
    (cardPipeline [exVenda] [exCusto]).map mdrLiquidoVegas = [9] := by
  rw [exPipeline_eq]
  simp only [List.map_cons, List.map_nil]
  refine ⟨?_, ?_, ?_, ?_, ?_⟩
  case refine_1 =>
    unfold mdrLiquidoVegas impostoSobreVegasBruto vegasBruto custoEntrepayMDR receitaVegasAnt
    ring
  all_goals
    norm_num [mdrLiquidoVegas, impostoSobreVegasBruto, vegasBruto, custoEntrepayMDR,
      receitaVegasAnt, mdrN, valorN, tarifaAntN, propVegas, propIntrepay, intrepayAnt,
      totalAnt, exJoinedRow, exVenda]

/-! ### Claim C2: defaults on a left-join miss -/

theorem venda_of_joinOne {slim : List SlimCusto} {v : VendaRow} {r : JoinedRaw}
    (hr : r ∈ joinOne slim v) : r.venda = v := by
  unfold joinOne at hr
  cases hfil : slim.filter (fun c => decide (slimKey c = vendaKey v)) with
  | nil =>
    rw [hfil] at hr
    simp only [List.mem_singleton] at hr
    rw [hr]
  | cons m ms =>
    rw [hfil] at hr
    simp only [List.mem_map] at hr
    obtain ⟨c, _, rfl⟩ := hr
    rfl

theorem raw_none_of_no_match {slim : List SlimCusto} :
    ∀ (vendas : List VendaRow) (r : JoinedRaw), r ∈ leftMerge slim vendas →
      slim.filter (fun c => decide (slimKey c = vendaKey r.venda)) = [] →
      r.taxa = none ∧ r.taxaAnt = none ∧ r.imposto = none := by
  intro vendas
  induction vendas with
  | nil =>
    intro r hr
    simp [leftMerge] at hr
  | cons v vs ih =>
    intro r hr hnm
    simp only [leftMerge, List.mem_append] at hr
    rcases hr with hr | hr
    · have hv : r.venda = v := venda_of_joinOne hr
      rw [hv] at hnm
      unfold joinOne at hr
      rw [hnm] at hr
      simp only [List.mem_singleton] at hr
      rw [hr]
      exact ⟨rfl, rfl, rfl⟩
    · exact ih r hr hnm

/-- Claim C2: a transaction whose (MCC, brand key, product key) matches
no row of the deduplicated cost table receives fee rate 0, advance rate
0 and tax rate 0.115; on the example transaction (gross 1000, MDR fee
20) with no matching cost row this yields processor MDR cost 0, gross
revenue 20, tax owed 2.30 and net margin 17.70. -/
theorem unmatched_defaults (vendas : List VendaRow) (custos : List CustoRow)
    (r : JoinedRow) (hr : r ∈ cardPipeline vendas custos)
    (hnm : (custosSlim custos).filter
      (fun c => decide (slimKey c = vendaKey r.venda)) = []) :
    (r.taxa = 0 ∧ r.taxaAnt = 0 ∧ r.imposto = 115 / 1000) ∧
    ((cardPipeline [exVenda] []).map custoEntrepayMDR = [0] ∧
     (cardPipeline [exVenda] []).map vegasBruto = [20] ∧
     (cardPipeline [exVenda] []).map impostoSobreVegasBruto = [23 / 10] ∧
     (cardPipeline [exVenda] []).map mdrLiquidoVegas = [177 / 10]) := by
  refine ⟨?_, ?_⟩
  case refine_2 =>
    rw [exPipelineNoCusto_eq]
    simp only [List.map_cons, List.map_nil]
    refine ⟨?_, ?_, ?_, ?_⟩ <;>
      norm_num [mdrLiquidoVegas, impostoSobreVegasBruto, vegasBruto, custoEntrepayMDR,
        receitaVegasAnt, mdrN, valorN, tarifaAntN, propVegas, propIntrepay, intrepayAnt,
        totalAnt, exJoinedDefault, exVenda]
  unfold cardPipeline at hr
  simp only [List.mem_map] at hr
  obtain ⟨r0, hr0, rfl⟩ := hr
  have hfields := raw_none_of_no_match vendas r0 hr0 hnm
  simp only [fillDefaults, hfields.1, hfields.2.1, hfields.2.2]
  exact ⟨rfl, rfl, rfl⟩

/-- Witness for the C2 theorem: the example transaction joined against
an empty cost table receives exactly the default rates. -/
theorem unmatched_defaults_witness :
    (⟨exVenda, 0, 0, 115 / 1000⟩ : JoinedRow).taxa = 0 ∧
    (⟨exVenda, 0, 0, 115 / 1000⟩ : JoinedRow).taxaAnt = 0 ∧
    (⟨exVenda, 0, 0, 115 / 1000⟩ : JoinedRow).imposto = 115 / 1000 :=
  (unmatched_defaults [exVenda] [] ⟨exVenda, 0, 0, 115 / 1000⟩
    (by rw [exPipelineNoCusto_eq]; exact List.mem_singleton.mpr rfl) rfl).1

/-! ### Claim C3: totality of the left join -/

/-- A transaction that matches two surviving cost rows (same key, one
with fee rate 0.01 and one with a null fee rate — drop_duplicates
removes exact-duplicate rows only, not duplicate keys). -/
def cexVenda : VendaRow :=
  ⟨strL "5411", some (strL "MASTER"), some (strL "CREDITO"),
   some 100, some 2, some 0, none⟩

def cexCusto1 : CustoRow :=
  ⟨strL "5411", strL "MASTER", strL "CREDITO", some (1 / 100), some 0, some (1 / 10)⟩

def cexCusto2 : CustoRow :=
  ⟨strL "5411", strL "MASTER", strL "CREDITO", none, some 0, some (1 / 10)⟩

/-- Claim C3, counterexample: the join is not total for every cost
table.  Two cost rows with the same key but different fee rates both
survive deduplication, and the single matching transaction is joined
against both, so one input row yields two joined rows. -/
theorem join_not_total :
    (cardPipeline [cexVenda] [cexCusto1, cexCusto2]).length = 2 ∧
    (cardPipeline [cexVenda] [cexCusto1, cexCusto2]).length ≠ [cexVenda].length := by
  refine ⟨rfl, ?_⟩
  intro hcon
  rw [show (cardPipeline [cexVenda] [cexCusto1, cexCusto2]).length = 2 from rfl] at hcon
  simp at hcon

theorem length_filter_key_le_one {α β : Type} [DecidableEq β] (f : α → β) (k : β) :
    ∀ l : List α, (l.map f).Nodup →
      (l.filter (fun a => decide (f a = k))).length ≤ 1 := by
  intro l
  induction l with
  | nil =>
    intro _
    simp
  | cons a t ih =>
    intro h
    simp only [List.map_cons, List.nodup_cons] at h
    rw [List.filter_cons]
    by_cases hak : f a = k
    · have ht : t.filter (fun b => decide (f b = k)) = [] := by
        rw [List.filter_eq_nil_iff]
        intro b hb hbk
        apply h.1
        rw [show f a = f b by rw [hak]; exact (of_decide_eq_true hbk).symm]
        exact List.mem_map_of_mem f hb
      simp [hak, ht]
    · simp only [decide_eq_true_eq, hak]
      simpa using ih h.2

theorem length_joinOne_pos (slim : List SlimCusto) (v : VendaRow) :
    1 ≤ (joinOne slim v).length := by
  unfold joinOne
  cases slim.filter (fun c => decide (slimKey c = vendaKey v)) with
  | nil => simp
  | cons m ms => simp

theorem length_joinOne_eq_one (slim : List SlimCusto) (v : VendaRow)
    (h : (slim.map slimKey).Nodup) : (joinOne slim v).length = 1 := by
  unfold joinOne
  cases hfil : slim.filter (fun c => decide (slimKey c = vendaKey v)) with
  | nil => simp
  | cons m ms =>
    have hle := length_filter_key_le_one slimKey (vendaKey v) slim h
    rw [hfil] at hle
    simp only [List.length_cons] at hle
    simp only [List.length_map, List.length_cons]
    omega

theorem length_leftMerge_ge (slim : List SlimCusto) :
    ∀ vendas : List VendaRow, vendas.length ≤ (leftMerge slim vendas).length := by
  intro vendas
  induction vendas with
  | nil => simp [leftMerge]
  | cons v vs ih =>
    simp only [leftMerge, List.length_append, List.length_cons]
    have := length_joinOne_pos slim v
    omega

theorem length_leftMerge_eq (slim : List SlimCusto) (h : (slim.map slimKey).Nodup) :
    ∀ vendas : List VendaRow, (leftMerge slim vendas).length = vendas.length := by
  intro vendas
  induction vendas with
  | nil => simp [leftMerge]
  | cons v vs ih =>
    simp only [leftMerge, List.length_append, List.length_cons]
    rw [length_joinOne_eq_one slim v h, ih]
    omega

/-- Claim C3, amended: the left join never drops a transaction (the
joined table always has at least as many rows as the transaction table),
and the number of joined rows equals the number of input transactions
whenever the deduplicated cost table has at most one row per (MCC, brand
key, product key).  A duplicated key with differing rates multiplies its
matching transactions instead (see the counterexample). -/
theorem join_total (vendas : List VendaRow) (custos : List CustoRow) :
    vendas.length ≤ (cardPipeline vendas custos).length ∧
    (((custosSlim custos).map slimKey).Nodup →
      (cardPipeline vendas custos).length = vendas.length) := by
  constructor
  · unfold cardPipeline
    rw [List.length_map]
    exact length_leftMerge_ge (custosSlim custos) vendas
  · intro h
    unfold cardPipeline
    rw [List.length_map]
    exact length_leftMerge_eq (custosSlim custos) h vendas

/-- Witness for the C3 theorem: with a single-row (hence unique-keyed)
cost table the joined table has exactly one row for one transaction. -/
theorem join_total_witness :
    (cardPipeline [cexVenda] [cexCusto1]).length = [cexVenda].length :=
  (join_total [cexVenda] [cexCusto1]).2 (by decide)

/-! ### Month keys and the monthly aggregator -/

/-- Decimal digit code points of a natural number. -/
def digitsN (n : Nat) : List Nat := (Nat.toDigits 10 n).map Char.toNat

/-- Left-pad a digit string with zeros to the given width (never
truncates). -/
def padZeros (w : Nat) (ds : List Nat) : List Nat :=
  List.replicate (w - ds.length) (Char.toNat '0') ++ ds

/-- ensure_period_str: pd.to_datetime errors coerce followed by
to_period M and astype str.  A parsed date becomes its calendar month
formatted YYYY-MM; an unparseable date (NaT) becomes the sentinel string
NaT. -/
def ensurePeriodStr (d : Option PDate) : List Nat :=
  match d with
  | some dt => padZeros 4 (digitsN dt.y) ++ Char.toNat '-' :: padZeros 2 (digitsN dt.m)
  | none => strL "NaT"

/-- The Mes column of a joined row. -/
def mesOf (r : JoinedRow) : List Nat := ensurePeriodStr r.venda.dataTransacao

/-- One row of resumo_cart: the month key and the three summed metrics. -/
structure ResumoCartRow where
  mes : List Nat
  vendasBrutas : ℚ
  mdr : ℚ
  mdrLiquido : ℚ
deriving DecidableEq

/-- Sum of a per-row metric over the rows of one month bucket. -/
def sumBy (f : JoinedRow → ℚ) (rows : List JoinedRow) (m : List Nat) : ℚ :=
  ((rows.filter (fun r => decide (mesOf r = m))).map f).sum

/-- The distinct month keys, first occurrence first (the groupby
bucket set). -/
def mesKeys (rows : List JoinedRow) : List (List Nat) := dropDupFirst (rows.map mesOf)

/-- filt_cart.groupby(Mes).agg of lines 281-287: one output row per
distinct month, with the summed Valor, MDR and MDR Líquido columns. -/
def resumoCart (rows : List JoinedRow) : List ResumoCartRow :=
  (mesKeys rows).map
    (fun m => ⟨m, sumBy valorN rows m, sumBy mdrN rows m, sumBy mdrLiquidoVegas rows m⟩)

/-- MDR Líquido (%) of lines 288-291: np.where(gross greater than 0,
margin over gross times 100, 0). -/
def mdrLiquidoPct (b : ResumoCartRow) : ℚ :=
  if 0 < b.vendasBrutas then b.mdrLiquido / b.vendasBrutas * 100 else 0

/-- Atingimento of lines 441-444: np.where(forecast greater than 0,
realized over forecast times 100, 0). -/
def atingimentoPct (previsao realizado : ℚ) : ℚ :=
  if 0 < previsao then realizado / previsao * 100 else 0

/-! ### Facts about deduplication -/

theorem mem_dropDupAux {α : Type} [DecidableEq α] :
    ∀ (l seen : List α) (x : α), x ∈ l → x ∉ seen → x ∈ dropDupAux seen l := by
  intro l
  induction l with
  | nil =>
    intro seen x hx
    simp at hx
  | cons a t ih =>
    intro seen x hx hxs
    by_cases has : a ∈ seen
    · simp only [dropDupAux, if_pos has]
      rcases List.mem_cons.mp hx with rfl | hxt
      · exact absurd has hxs
      · exact ih seen x hxt hxs
    · simp only [dropDupAux, if_neg has]
      by_cases hxa : x = a
      · rw [hxa]
        exact List.mem_cons_self a _
      · rcases List.mem_cons.mp hx with rfl | hxt
        · exact absurd rfl hxa
        · refine List.mem_cons_of_mem a (ih (a :: seen) x hxt ?_)
          intro hcon
          rcases List.mem_cons.mp hcon with rfl | h2
          · exact hxa rfl
          · exact hxs h2

theorem dropDupAux_not_mem_seen {α : Type} [DecidableEq α] :
    ∀ (l seen : List α) (x : α), x ∈ dropDupAux seen l → x ∉ seen := by
  intro l
  induction l with
  | nil =>
    intro seen x hx
    simp [dropDupAux] at hx
  | cons a t ih =>
    intro seen x hx hxs
    by_cases has : a ∈ seen
    · rw [dropDupAux, if_pos has] at hx
      exact ih seen x hx hxs
    · rw [dropDupAux, if_neg has] at hx
      rcases List.mem_cons.mp hx with rfl | hxt
      · exact has hxs
      · exact ih (a :: seen) x hxt (List.mem_cons_of_mem a hxs)

theorem nodup_dropDupAux {α : Type} [DecidableEq α] :
    ∀ (l seen : List α), (dropDupAux seen l).Nodup := by
  intro l
  induction l with
  | nil =>
    intro seen
    simp [dropDupAux]
  | cons a t ih =>
    intro seen
    by_cases has : a ∈ seen
    · simp only [dropDupAux, if_pos has]
      exact ih seen
    · simp only [dropDupAux, if_neg has]
      rw [List.nodup_cons]
      refine ⟨?_, ih (a :: seen)⟩
      intro hcon
      exact dropDupAux_not_mem_seen t (a :: seen) a hcon (List.mem_cons_self a seen)

theorem mem_mesKeys (rows : List JoinedRow) (r : JoinedRow) (hr : r ∈ rows) :
    mesOf r ∈ mesKeys rows :=
  mem_dropDupAux (rows.map mesOf) [] (mesOf r)
    (List.mem_map_of_mem mesOf hr) (by simp)

theorem nodup_mesKeys (rows : List JoinedRow) : (mesKeys rows).Nodup :=
  nodup_dropDupAux (rows.map mesOf) []

/-! ### Claims C5, C6 and C9: aggregation, percentages, month keys -/

/-- March 2024 example row with gross 1000 (MDR 20, fee rate 0.01, tax
rate 0.10, so net margin 9). -/
def exRow1000 : JoinedRow :=
  ⟨⟨strL "5411", some (strL "VISA"), some (strL "CREDITO"), some 1000, some 20, some 0,
    some ⟨2024, 3, 15⟩⟩, 1 / 100, 0, 1 / 10⟩

/-- March 2024 example row with gross 500 (MDR 10, all rates 0, so net
margin 10). -/
def exRow500 : JoinedRow :=
  ⟨⟨strL "5411", some (strL "VISA"), some (strL "CREDITO"), some 500, some 10, some 0,
    some ⟨2024, 3, 20⟩⟩, 0, 0, 0⟩

/-- Claim C5: every row of the monthly aggregate carries, for its month
key, exactly the sums of the per-row metrics over the rows whose month
key matches, and the bucket keys are pairwise distinct; the two March
2024 example transactions with gross 1000 and 500 produce the single
bucket 2024-03 with gross sum 1500 (MDR sum 30, net-margin sum 19). -/
theorem resumoCart_sums (rows : List JoinedRow) (b : ResumoCartRow)
    (hb : b ∈ resumoCart rows) :
    (b.vendasBrutas = ((rows.filter (fun r => decide (mesOf r = b.mes))).map valorN).sum ∧
     b.mdr = ((rows.filter (fun r => decide (mesOf r = b.mes))).map mdrN).sum ∧
     b.mdrLiquido =
       ((rows.filter (fun r => decide (mesOf r = b.mes))).map mdrLiquidoVegas).sum ∧
     (mesKeys rows).Nodup) ∧
    (mesKeys [exRow1000, exRow500] = [strL "2024-03"] ∧
     sumBy valorN [exRow1000, exRow500] (strL "2024-03") = 1500 ∧
     sumBy mdrN [exRow1000, exRow500] (strL "2024-03") = 30 ∧
     sumBy mdrLiquidoVegas [exRow1000, exRow500] (strL "2024-03") = 19) := by
  have hfil : ([exRow1000, exRow500].filter
      (fun r => decide (mesOf r = strL "2024-03"))) = [exRow1000, exRow500] := rfl
  constructor
  · unfold resumoCart at hb
    simp only [List.mem_map] at hb
    obtain ⟨m, hmk, rfl⟩ := hb
    exact ⟨rfl, rfl, rfl, nodup_mesKeys rows⟩
  · refine ⟨rfl, ?_, ?_, ?_⟩ <;>
      simp only [sumBy, hfil, List.map_cons, List.map_nil] <;>
      norm_num [valorN, mdrN, mdrLiquidoVegas, impostoSobreVegasBruto, vegasBruto,
        custoEntrepayMDR, receitaVegasAnt, tarifaAntN, propVegas, propIntrepay,
        intrepayAnt, totalAnt, exRow1000, exRow500]

/-- Witness for the C5 theorem at the concrete two-row March 2024
table: its single aggregate row sums gross 1000 and 500. -/
theorem resumoCart_sums_witness :
    (⟨strL "2024-03", sumBy valorN [exRow1000, exRow500] (strL "2024-03"),
      sumBy mdrN [exRow1000, exRow500] (strL "2024-03"),
      sumBy mdrLiquidoVegas [exRow1000, exRow500] (strL "2024-03")⟩ : ResumoCartRow).vendasBrutas =
      (([exRow1000, exRow500].filter
        (fun r => decide (mesOf r = strL "2024-03"))).map valorN).sum :=
  (resumoCart_sums [exRow1000, exRow500] _
    (List.mem_singleton.mpr rfl)).1.1

/-- Claim C6: both derived percentage fields are exactly 0 when their
denominator is 0.  (Both are total functions of rational inputs, so the
model has no NaN value and no division error; np.where in the source
selects the literal 0 in that case.) -/
theorem pct_zero_when_denominator_zero (b : ResumoCartRow) (hb : b.vendasBrutas = 0)
    (previsao realizado : ℚ) (hp : previsao = 0) :
    mdrLiquidoPct b = 0 ∧ atingimentoPct previsao realizado = 0 := by
  constructor
  · unfold mdrLiquidoPct
    rw [hb, if_neg (lt_irrefl 0)]
  · unfold atingimentoPct
    rw [hp, if_neg (lt_irrefl 0)]

/-- Witness for the C6 theorem at a concrete zero-gross aggregate row
and a zero forecast. -/
theorem pct_zero_witness :
    mdrLiquidoPct ⟨strL "2024-03", 0, 0, 5⟩ = 0 ∧ atingimentoPct 0 7 = 0 :=
  pct_zero_when_denominator_zero ⟨strL "2024-03", 0, 0, 5⟩ rfl 0 7 rfl

/-- Claim C9: the month key is a pure function of the transaction date
alone (any two dates in the same calendar month yield the same key),
formatted YYYY-MM; an unparseable date yields the sentinel key NaT, and
every row, including invalid-dated ones, still lands in a bucket of the
monthly aggregate rather than being rejected. -/
theorem mesKey_pure_and_sentinel :
    (ensurePeriodStr none = strL "NaT") ∧
    (∀ y m d1 d2 : Nat,
      ensurePeriodStr (some ⟨y, m, d1⟩) = ensurePeriodStr (some ⟨y, m, d2⟩)) ∧
    (ensurePeriodStr (some ⟨2024, 3, 15⟩) = strL "2024-03") ∧
    (∀ (rows : List JoinedRow) (r : JoinedRow), r ∈ rows → mesOf r ∈ mesKeys rows) :=
  ⟨rfl, fun _ _ _ _ => rfl, rfl, fun rows r hr => mem_mesKeys rows r hr⟩

/-- A transaction whose date could not be parsed. -/
def invVenda : VendaRow := ⟨strL "5411", none, none, some 50, some 1, some 0, none⟩

/-- The joined row of the invalid-dated transaction after defaults. -/
def invRow : JoinedRow := ⟨invVenda, 0, 0, 115 / 1000⟩

/-- Witness for the C9 theorem: the invalid-dated row lands in the NaT
bucket of its aggregate. -/
theorem mesKey_witness :
    mesOf invRow ∈ mesKeys [invRow] ∧ mesOf invRow = strL "NaT" :=
  ⟨mesKey_pure_and_sentinel.2.2.2 [invRow] invRow (List.mem_singleton.mpr rfl), rfl⟩

/-! ### PIX: fixed-rate margin and the session tax rate -/

/-- One row of the PIX sales sheet (after the column renames): the gross
amount and the transaction date, both nullable. -/
structure PixRow where
  valor : Option ℚ
  dataTransacao : Option PDate
deriving DecidableEq

/-- A PIX row after the derived columns of lines 176-188. -/
structure PixCalcRow where
  valor : ℚ
  mes : List Nat
  receitaVegas : ℚ
  imposto : ℚ
  custoFixo : ℚ
  mdrLiquido : ℚ
deriving DecidableEq

/-- mdr_pix: the fixed PIX fee rate of 0.24 percent. -/
def mdrPix : ℚ := 24 / 10000

/-- custo_fxo: the fixed cost of 0.25 per PIX transaction. -/
def custoFixoPix : ℚ := 25 / 100

def insertSortedQ (a : ℚ) : List ℚ → List ℚ
  | [] => [a]
  | b :: l => if a ≤ b then a :: b :: l else b :: insertSortedQ a l

/-- Sorting of the rate values, for the median. -/
def sortQ : List ℚ → List ℚ
  | [] => []
  | a :: l => insertSortedQ a (sortQ l)

/-- pandas Series.median on a column with no missing values: the middle
element of the sorted values for odd length, the mean of the two middle
elements for even length. -/
def medianQ (l : List ℚ) : ℚ :=
  if l.length % 2 = 1 then (sortQ l).getD (l.length / 2) 0
  else ((sortQ l).getD (l.length / 2 - 1) 0 + (sortQ l).getD (l.length / 2) 0) / 2

/-- aliq_imp of line 183: the median of the joined card table's Imposto
column after default filling, or 0.115 when that column is empty. -/
def aliqImp (merged : List JoinedRow) : ℚ :=
  if merged = [] then 115 / 1000 else medianQ (merged.map JoinedRow.imposto)

/-- The PIX per-transaction derivation of lines 176-188: numeric Valor
(missing coerced to 0), month key, revenue at the fixed 0.24 percent
rate, tax at the session rate, fixed cost 0.25 per transaction (Qtde is
the constant 1), and net margin. -/
def pixCalc (aliq : ℚ) (p : PixRow) : PixCalcRow :=
  let v := p.valor.getD 0
  let receita := v * mdrPix
  ⟨v, ensurePeriodStr p.dataTransacao, receita, receita * aliq, 1 * custoFixoPix,
   receita - receita * aliq - 1 * custoFixoPix⟩

/-- The PIX table derivation: every PIX row, calculated at the single
session tax rate taken from the joined card table. -/
def pixPipeline (merged : List JoinedRow) (pixRows : List PixRow) : List PixCalcRow :=
  pixRows.map (pixCalc (aliqImp merged))

/-- Claim C4: for every PIX transaction the gross revenue is the gross
amount times 0.0024, the fixed per-transaction cost is 0.25, and the net
margin is the gross revenue minus the tax (gross revenue times the tax
rate) minus the fixed cost; at tax rate 0.115 a PIX transaction with
gross 500 yields revenue 1.20, tax 0.138, fixed cost 0.25 and net margin
0.812. -/
theorem pix_formula (aliq : ℚ) (p : PixRow) :
    (pixCalc aliq p).receitaVegas = p.valor.getD 0 * (24 / 10000) ∧
    (pixCalc aliq p).custoFixo = 25 / 100 ∧
    (pixCalc aliq p).mdrLiquido =
      (pixCalc aliq p).receitaVegas - (pixCalc aliq p).receitaVegas * aliq - 25 / 100 ∧
    ((pixCalc (115 / 1000) ⟨some 500, none⟩).receitaVegas = 12 / 10 ∧
     (pixCalc (115 / 1000) ⟨some 500, none⟩).imposto = 138 / 1000 ∧
     (pixCalc (115 / 1000) ⟨some 500, none⟩).custoFixo = 25 / 100 ∧
     (pixCalc (115 / 1000) ⟨some 500, none⟩).mdrLiquido = 812 / 1000) := by
  refine ⟨rfl, ?_, ?_, ?_, ?_, ?_, ?_⟩ <;>
    norm_num [pixCalc, mdrPix, custoFixoPix]

/-- Claim C10: the tax rate applied to every PIX transaction of a
session is the median of the joined card table's Imposto column after
default filling (so the 0.115 defaults of unmatched card rows feed into
it), and it is 0.115 when the card table has no rows. -/
theorem pix_tax_rate (vendas : List VendaRow) (custos : List CustoRow)
    (pixRows : List PixRow) :
    (vendas = [] → aliqImp (cardPipeline vendas custos) = 115 / 1000) ∧
    (cardPipeline vendas custos ≠ [] →
      aliqImp (cardPipeline vendas custos) =
        medianQ ((cardPipeline vendas custos).map JoinedRow.imposto)) ∧
    (∀ q ∈ pixPipeline (cardPipeline vendas custos) pixRows,
      q.imposto = q.receitaVegas * aliqImp (cardPipeline vendas custos)) := by
  refine ⟨?_, ?_, ?_⟩
  · intro hv
    subst hv
    rfl
  · intro hne
    unfold aliqImp
    rw [if_neg hne]
  · intro q hq
    unfold pixPipeline at hq
    simp only [List.mem_map] at hq
    obtain ⟨p, hp, rfl⟩ := hq
    rfl

/-- Witness for the C10 theorem: the empty card table gives rate 0.115;
the one-row example card table gives the median of its Imposto column,
and the example PIX row is taxed at that session rate. -/
theorem pix_tax_rate_witness :
    aliqImp (cardPipeline [] [exCusto]) = 115 / 1000 ∧
    aliqImp (cardPipeline [exVenda] [exCusto]) =
      medianQ ((cardPipeline [exVenda] [exCusto]).map JoinedRow.imposto) ∧
    (pixCalc (aliqImp (cardPipeline [exVenda] [exCusto])) ⟨some 500, none⟩).imposto =
      (pixCalc (aliqImp (cardPipeline [exVenda] [exCusto])) ⟨some 500, none⟩).receitaVegas *
        aliqImp (cardPipeline [exVenda] [exCusto]) :=
  ⟨(pix_tax_rate [] [exCusto] []).1 rfl,
   (pix_tax_rate [exVenda] [exCusto] []).2.1 (by rw [exPipeline_eq]; simp),
   (pix_tax_rate [exVenda] [exCusto] [⟨some 500, none⟩]).2.2 _
     (List.mem_singleton.mpr rfl)⟩

end VegasPay
